import Mathlib

/-!
Verification development for the Voltage.Pricer repository.

The Python sources are shallowly embedded: pandas Series become Lists,
float arithmetic becomes exact rational (or real, where `np.sin` appears)
arithmetic, and the Python `round(x, n)` (round-half-to-even) is modelled
explicitly.  Stochastic draws (`np.random.normal`) and external inputs
(XGBoost predictions, Elia load data) are passed as explicit parameters.
-/

namespace VoltagePricer

/-! ## Python rounding (round-half-to-even, as used by `round(x, 2)`) -/

/-- Round a rational to the nearest integer, ties to even (Python `round`). -/
def pyRoundInt (x : ℚ) : ℤ :=
  if x - ⌊x⌋ < 1/2 then ⌊x⌋
  else if 1/2 < x - ⌊x⌋ then ⌊x⌋ + 1
  else if ⌊x⌋ % 2 = 0 then ⌊x⌋ else ⌊x⌋ + 1

/-- Python `round(x, 2)`. -/
def round2 (x : ℚ) : ℚ := (pyRoundInt (100 * x) : ℚ) / 100

/-- Python `round(x, 1)`. -/
def round1 (x : ℚ) : ℚ := (pyRoundInt (10 * x) : ℚ) / 10

theorem le_pyRoundInt (x : ℚ) : ⌊x⌋ ≤ pyRoundInt x := by
  unfold pyRoundInt; split_ifs <;> omega

theorem pyRoundInt_le (x : ℚ) : pyRoundInt x ≤ ⌊x⌋ + 1 := by
  unfold pyRoundInt; split_ifs <;> omega

theorem pyRoundInt_mono {x y : ℚ} (h : x ≤ y) : pyRoundInt x ≤ pyRoundInt y := by
  rcases lt_or_eq_of_le (Int.floor_mono h) with hf | hf
  · calc pyRoundInt x ≤ ⌊x⌋ + 1 := pyRoundInt_le x
      _ ≤ ⌊y⌋ := by omega
      _ ≤ pyRoundInt y := le_pyRoundInt y
  · have hr : x - (⌊x⌋ : ℚ) ≤ y - (⌊y⌋ : ℚ) := by rw [hf]; linarith
    unfold pyRoundInt
    rw [hf]
    split_ifs <;> first | omega | linarith

theorem pyRoundInt_abs (x : ℚ) : |(pyRoundInt x : ℚ) - x| ≤ 1/2 := by
  have h1 : (⌊x⌋ : ℚ) ≤ x := Int.floor_le x
  have h2 : x < ⌊x⌋ + 1 := Int.lt_floor_add_one x
  unfold pyRoundInt
  split_ifs with ha hb hc <;> rw [abs_le] <;> constructor <;> push_cast <;> linarith

theorem round2_mono {x y : ℚ} (h : x ≤ y) : round2 x ≤ round2 y := by
  unfold round2
  have := pyRoundInt_mono (show 100 * x ≤ 100 * y by linarith)
  have h2 : ((pyRoundInt (100 * x) : ℚ)) ≤ (pyRoundInt (100 * y) : ℚ) := by
    exact_mod_cast this
  linarith

theorem round2_abs (x : ℚ) : |round2 x - x| ≤ 1/200 := by
  have h := pyRoundInt_abs (100 * x)
  have hrw : round2 x - x = ((pyRoundInt (100 * x) : ℚ) - 100 * x) / 100 := by
    unfold round2; ring
  rw [hrw, abs_div]
  rw [show |(100 : ℚ)| = 100 by norm_num]
  rw [div_le_iff₀ (by norm_num : (0:ℚ) < 100)]
  linarith

theorem round2_exists_int (x : ℚ) : ∃ n : ℤ, round2 x = (n : ℚ) / 100 :=
  ⟨pyRoundInt (100 * x), rfl⟩

/-! ## Embedding of `src/domain/risk_models.py` (`RiskEngine`)

Series become lists of rationals; `pandas.Series.mean()` becomes
`listMean`, elementwise products become `zipWith`. -/

/-- Mean of a list (`Series.mean()` / `np.mean`); `0` on the empty list,
matching the convention `0 / 0 = 0` of rational division. -/
def listMean (l : List ℚ) : ℚ := l.sum / l.length

/-- `RiskEngine.calculate_profiling_cost`: load-weighted price minus
baseload mean, rounded to 2 decimals, with defensive guards for empty
series and zero total load. -/
def calculate_profiling_cost (load_curve hpfc : List ℚ) : ℚ :=
  if load_curve = [] ∨ hpfc = [] then 0
  else
    let total_volume := load_curve.sum
    if total_volume = 0 then 0
    else
      let market_baseload_price := listMean hpfc
      let client_capture_price := (List.zipWith (· * ·) load_curve hpfc).sum / total_volume
      round2 (client_capture_price - market_baseload_price)

/-- `RiskEngine.calculate_volume_risk_premium`.  The `spot_volatility`
field of the engine is passed explicitly.  The `if/elif` chain of the
source is kept verbatim: the `volume_mwh < 500` test is only reached
when `volume_mwh < 2000` already failed. -/
def calculate_volume_risk_premium (spot_volatility volume_mwh : ℚ) : ℚ :=
  let base_risk_premium : ℚ := 1.0
  let vol_component := 5.0 * spot_volatility
  let size_factor : ℚ :=
    if volume_mwh < 2000 then 1.5
    else if volume_mwh < 500 then 2.0
    else 1.0
  let premium := (base_risk_premium + vol_component) * size_factor
  round2 (min premium 15.0)

/-- Modelled from the spec: the volume risk premium with the size factor
step function exactly as the specification states it (1.0 for volumes
≥ 2000, 1.5 for [500, 2000), 2.0 for < 500), capped at 15.0. -/
def spec_volume_risk_premium (spot_volatility volume_mwh : ℚ) : ℚ :=
  let size_factor : ℚ :=
    if 2000 ≤ volume_mwh then 1.0
    else if 500 ≤ volume_mwh then 1.5
    else 2.0
  min ((1.0 + 5.0 * spot_volatility) * size_factor) 15.0

/-! ## Embedding of `src/domain/ppa_valuation.py` -/

structure PPAResult where
  fair_price : ℚ
  capture_rate : ℚ
  cannibalization_impact : ℚ
  deriving DecidableEq

/-- The Python `str.upper()` method (character-wise uppercasing). -/
def str_upper (s : String) : String := ⟨s.data.map Char.toUpper⟩

/-- The `capture_map.get(technology, 0.90)` dictionary lookup. -/
def capture_map_get (technology : String) : ℚ :=
  if technology = "SOLAR" then 0.88
  else if technology = "ONSHORE_WIND" then 0.92
  else if technology = "OFFSHORE_WIND" then 0.96
  else 0.90

/-- `price_renewable_ppa` from `ppa_valuation.py`. -/
def price_renewable_ppa (technology : String) (baseload_price : ℚ) : PPAResult :=
  let capture_rate := capture_map_get (str_upper technology)
  let risk_buffer : ℚ := 1.5
  let fair_price := baseload_price * capture_rate - risk_buffer
  let cannibalization := baseload_price * (1.0 - capture_rate)
  { fair_price := round2 fair_price
    capture_rate := round1 (capture_rate * 100)
    cannibalization_impact := round2 cannibalization }

/-! ## Peak / weekend encoding (`_create_features` and the peak mask of
`compute_sourcing_cost`): EEX-style convention. -/

/-- The boolean peak mask `(hour >= 8) & (hour < 20) & (dayofweek < 5)`. -/
def is_peak (hour dow : ℕ) : Bool :=
  decide (8 ≤ hour) && decide (hour < 20) && decide (dow < 5)

/-- The `is_peak` feature column: the mask cast to an integer 0/1. -/
def is_peak_flag (hour dow : ℕ) : ℕ := if is_peak hour dow then 1 else 0

/-- The `is_weekend` feature column: `(dayofweek >= 5).astype(int)`. -/
def is_weekend_flag (dow : ℕ) : ℕ := if 5 ≤ dow then 1 else 0

/-! ## Embedding of `src/domain/pricing_models.py`

A load curve point carries its calendar coordinates (hour of day and day
of week, the only two attributes the function reads) together with the
load and the HPFC price aligned to the same timestamp. -/

structure HourPoint where
  hour : ℕ
  dayofweek : ℕ
  load : ℚ
  price : ℚ

structure SourcingResult where
  total_volume_mwh : ℚ
  base_volume_mwh : ℚ
  peak_volume_mwh : ℚ
  weighted_average_price : ℚ
  total_commodity_cost : ℚ
  deriving DecidableEq

/-- `ElectricityPricingEngine.compute_sourcing_cost`, with the HPFC
(already aligned to the load curve index) carried inside each point. -/
def compute_sourcing_cost (curve : List HourPoint) : SourcingResult :=
  let total_volume := (curve.map HourPoint.load).sum
  let peak_volume :=
    ((curve.filter (fun p => is_peak p.hour p.dayofweek)).map HourPoint.load).sum
  let base_volume := total_volume
  let total_cost := (curve.map (fun p => p.load * p.price)).sum
  let avg_price := if 0 < total_volume then total_cost / total_volume else 0
  { total_volume_mwh := round2 total_volume
    base_volume_mwh := round2 base_volume
    peak_volume_mwh := round2 peak_volume
    weighted_average_price := round2 avg_price
    total_commodity_cost := round2 total_cost }

/-! ## Embedding of `MLPriceForecaster.generate_forecast_curve`

The XGBoost predictions for the target year are an opaque input: we pass
the predicted price vector explicitly.  The level calibration and the
clipping are the code under verification. -/

/-- Level calibration step of `generate_forecast_curve`: shift the raw
prediction by `spot_reference - mean(predicted)`, then clip at zero. -/
def generate_forecast_curve (predicted_prices : List ℚ) (spot_reference : ℚ) : List ℚ :=
  let current_mean := listMean predicted_prices
  let adjustment := spot_reference - current_mean
  (predicted_prices.map (fun p => p + adjustment)).map (fun p => max p 0)

/-! ## Embedding of `src/ingestion/curve_generator.py` (`LoadCurveGenerator`)

`pd.date_range(f"{year}-01-01", f"{year}-12-31 23:00", freq="h")` produces
one entry per hour of the calendar year; position `i` of a curve is hour
`i` of the year.  Calendar attributes (`dates.hour`, `dates.dayofweek`)
are recovered from the position with proleptic-Gregorian arithmetic
(pandas `dayofweek`: Monday = 0).  `np.random.normal` draws are passed as
an explicit `noise` function and the Elia data as an explicit list. -/

/-- Number of Gregorian leap years in `[1, y]`. -/
def leapCount (y : ℕ) : ℕ := y / 4 - y / 100 + y / 400

/-- Gregorian leap-year test. -/
def isLeap (y : ℕ) : Bool := (y % 4 == 0 && y % 100 != 0) || (y % 400 == 0)

def daysInYear (y : ℕ) : ℕ := if isLeap y then 366 else 365

/-- `len(pd.date_range(start=jan 1, end=dec 31 23:00, freq="h"))`. -/
def n_hours (y : ℕ) : ℕ := 24 * daysInYear y

/-- Day of week (Monday = 0) of January 1st of year `y`
(proleptic Gregorian; January 1st of year 1 is a Monday). -/
def jan1Dow (y : ℕ) : ℕ := (365 * (y - 1) + leapCount (y - 1)) % 7

/-- The `dates.hour` attribute at position `i` of the hourly range of the year. -/
def hourOfDay (i : ℕ) : ℕ := i % 24

/-- The `dates.dayofweek` attribute at position `i` of the hourly range of the year. -/
def dayOfWeek (y i : ℕ) : ℕ := (jan1Dow y + i / 24) % 7

/-- The relative shape (`base_curve`) built by the synthetic branch of
`generate_profile`, per hour position `i`:
industry: near-flat noise, weekends damped by 0.85;
office: noise during working hours (8..18 on weekdays), 0.1 otherwise;
solar: daylight sine bell (hours 6..20), clipped at zero. -/
noncomputable def baseShape (year : ℕ) (profile_type : String) (noise : ℕ → ℝ) (i : ℕ) : ℝ :=
  if profile_type = "INDUSTRY_24_7" then
    if 5 ≤ dayOfWeek year i then 0.85 * noise i else noise i
  else if profile_type = "OFFICE_BUILDING" then
    if 8 ≤ hourOfDay i ∧ hourOfDay i ≤ 18 ∧ dayOfWeek year i < 5 then noise i else 0.1
  else if profile_type = "SOLAR_PPA" then
    max (if 6 ≤ hourOfDay i ∧ hourOfDay i ≤ 20 then
            Real.sin (((hourOfDay i : ℝ) - 6) * Real.pi / 14)
          else 0) 0
  else 0

/-- `np.tile(pattern, (n // len(pattern)) + 1)[:n]`. -/
def tile_to (n : ℕ) (pattern : List ℝ) : List ℝ :=
  (List.flatten (List.replicate (n / pattern.length + 1) pattern)).take n

/-- The real-data branch of `generate_profile`: repeat the Elia pattern
over the year, then normalize to the target volume (all-zero series if
the pattern sums to zero). -/
noncomputable def real_data_path (n : ℕ) (pattern : List ℝ) (annual_volume_mwh : ℝ) : List ℝ :=
  let full_pattern := tile_to n pattern
  let total_units := full_pattern.sum
  if total_units = 0 then List.replicate n 0
  else full_pattern.map (fun x => x / total_units * annual_volume_mwh)

/-- The synthetic branch of `generate_profile`: build `base_curve`, then
scale it to the target volume when its sum is positive, else return it
unscaled (the all-zero edge case). -/
noncomputable def synthetic_path (year : ℕ) (profile_type : String) (noise : ℕ → ℝ)
    (annual_volume_mwh : ℝ) : List ℝ :=
  let base_curve := (List.range (n_hours year)).map (baseShape year profile_type noise)
  let total_units := base_curve.sum
  if 0 < total_units then base_curve.map (fun x => x / total_units * annual_volume_mwh)
  else base_curve

/-- `LoadCurveGenerator.generate_profile`.  The Elia fetch result is the
`real_curve` parameter; it is used only for `INDUSTRY_24_7` and only
when non-empty, exactly as in the source. -/
noncomputable def generate_profile (year : ℕ) (profile_type : String) (noise : ℕ → ℝ)
    (real_curve : List ℝ) (annual_volume_mwh : ℝ) : List ℝ :=
  if profile_type = "INDUSTRY_24_7" ∧ real_curve ≠ [] then
    real_data_path (n_hours year) real_curve annual_volume_mwh
  else
    synthetic_path year profile_type noise annual_volume_mwh

/-! ## List helper lemmas -/

theorem sum_pos_of_mem {l : List ℝ} (hn : ∀ x ∈ l, 0 ≤ x) {x : ℝ}
    (hx : x ∈ l) (hp : 0 < x) : 0 < l.sum := by
  induction l with
  | nil => cases hx
  | cons a t ih =>
    rw [List.sum_cons]
    rcases List.mem_cons.mp hx with h | h
    · have ht : 0 ≤ t.sum :=
        List.sum_nonneg (fun y hy => hn y (List.mem_cons_of_mem a hy))
      subst h; linarith
    · have ha : 0 ≤ a := hn a (List.mem_cons_self a t)
      have := ih (fun y hy => hn y (List.mem_cons_of_mem a hy)) h
      linarith

theorem normalize_sum (l : List ℝ) (V : ℝ) (h : l.sum ≠ 0) :
    (l.map (fun x => x / l.sum * V)).sum = V := by
  have hfun : (fun x : ℝ => x / l.sum * V) = (fun x : ℝ => id x * (V / l.sum)) := by
    funext x; simp only [id]; ring
  rw [hfun, List.sum_map_mul_right, List.map_id]
  field_simp

theorem length_flatten_replicate (r : ℕ) (l : List ℝ) :
    (List.flatten (List.replicate r l)).length = r * l.length := by
  induction r with
  | zero => simp
  | succ k ih =>
    rw [List.replicate_succ, List.flatten_cons, List.length_append, ih, Nat.succ_mul]
    omega

theorem mem_flatten_replicate {r : ℕ} {l : List ℝ} {x : ℝ}
    (h : x ∈ List.flatten (List.replicate r l)) : x ∈ l := by
  rcases List.mem_flatten.mp h with ⟨s, hs, hx⟩
  rwa [List.eq_of_mem_replicate hs] at hx

theorem lt_div_succ_mul (n L : ℕ) (hL : 0 < L) : n < (n / L + 1) * L := by
  have h1 := Nat.div_add_mod n L
  have h2 := Nat.mod_lt n hL
  calc n = L * (n / L) + n % L := h1.symm
    _ < L * (n / L) + L := by omega
    _ = (n / L + 1) * L := by ring

theorem mem_tile_to {n : ℕ} {l : List ℝ} {x : ℝ} (hx : x ∈ l)
    (hlen : l.length ≤ n) : x ∈ tile_to n l := by
  unfold tile_to
  rw [show n / l.length + 1 = (n / l.length) + 1 from rfl, List.replicate_succ,
    List.flatten_cons, List.take_append_eq_append_take, List.take_of_length_le hlen]
  exact List.mem_append_left _ hx

theorem tile_to_length {n : ℕ} {l : List ℝ} (hl : l ≠ []) :
    (tile_to n l).length = n := by
  unfold tile_to
  rw [List.length_take, length_flatten_replicate]
  have hpos : 0 < l.length := List.length_pos.mpr hl
  exact Nat.min_eq_left (le_of_lt (lt_div_succ_mul n l.length hpos))

theorem mem_tile_to_mem {n : ℕ} {l : List ℝ} {x : ℝ} (h : x ∈ tile_to n l) : x ∈ l :=
  mem_flatten_replicate (List.take_subset _ _ h)

theorem n_hours_ge (y : ℕ) : 8760 ≤ n_hours y := by
  unfold n_hours daysInYear
  split <;> norm_num

/-! ## Shape lemmas for the synthetic branch -/

theorem baseShape_nonneg (year : ℕ) (pt : String) (noise : ℕ → ℝ)
    (hn : ∀ i, 0 ≤ noise i) (i : ℕ) : 0 ≤ baseShape year pt noise i := by
  unfold baseShape
  split_ifs <;>
    first
      | exact mul_nonneg (by norm_num) (hn i)
      | exact hn i
      | norm_num

theorem baseShape_industry_pos (year : ℕ) (noise : ℕ → ℝ) (h0 : 0 < noise 0) :
    0 < baseShape year "INDUSTRY_24_7" noise 0 := by
  unfold baseShape
  rw [if_pos rfl]
  split_ifs
  · exact mul_pos (by norm_num) h0
  · exact h0

theorem baseShape_office_zero (year : ℕ) (noise : ℕ → ℝ) :
    baseShape year "OFFICE_BUILDING" noise 0 = 0.1 := by
  unfold baseShape hourOfDay
  simp

theorem baseShape_solar_13 (year : ℕ) (noise : ℕ → ℝ) :
    baseShape year "SOLAR_PPA" noise 13 = 1 := by
  unfold baseShape
  have hstr1 : ("SOLAR_PPA" : String) ≠ "INDUSTRY_24_7" := by decide
  have hstr2 : ("SOLAR_PPA" : String) ≠ "OFFICE_BUILDING" := by decide
  rw [if_neg hstr1, if_neg hstr2, if_pos rfl]
  have hh : hourOfDay 13 = 13 := by decide
  rw [hh, if_pos (by norm_num)]
  have harg : ((13 : ℕ) - 6 : ℝ) * Real.pi / 14 = Real.pi / 2 := by
    push_cast; ring
  rw [show ((13 : ℕ) : ℝ) = (13 : ℝ) from by push_cast; ring] at harg ⊢
  rw [harg, Real.sin_pi_div_two]
  exact max_eq_left zero_le_one

theorem synthetic_base_sum_pos (year : ℕ) (pt : String) (noise : ℕ → ℝ)
    (hn : ∀ i, 0 ≤ noise i) (h0 : 0 < noise 0)
    (hpt : pt = "INDUSTRY_24_7" ∨ pt = "OFFICE_BUILDING" ∨ pt = "SOLAR_PPA") :
    0 < ((List.range (n_hours year)).map (baseShape year pt noise)).sum := by
  have hnn : ∀ x ∈ (List.range (n_hours year)).map (baseShape year pt noise), 0 ≤ x := by
    intro x hx
    rcases List.mem_map.mp hx with ⟨i, _, rfl⟩
    exact baseShape_nonneg year pt noise hn i
  have hbig := n_hours_ge year
  rcases hpt with h | h | h
  · subst h
    exact sum_pos_of_mem hnn (List.mem_map.mpr ⟨0, List.mem_range.mpr (by omega), rfl⟩)
      (baseShape_industry_pos year noise h0)
  · subst h
    refine sum_pos_of_mem hnn (List.mem_map.mpr ⟨0, List.mem_range.mpr (by omega), rfl⟩) ?_
    rw [baseShape_office_zero]; norm_num
  · subst h
    refine sum_pos_of_mem hnn (List.mem_map.mpr ⟨13, List.mem_range.mpr (by omega), rfl⟩) ?_
    rw [baseShape_solar_13]; norm_num

theorem synthetic_path_spec (year : ℕ) (pt : String) (noise : ℕ → ℝ) (V : ℝ)
    (hpt : pt = "INDUSTRY_24_7" ∨ pt = "OFFICE_BUILDING" ∨ pt = "SOLAR_PPA")
    (hV : 0 < V) (hn : ∀ i, 0 ≤ noise i) (h0 : 0 < noise 0) :
    (synthetic_path year pt noise V).length = n_hours year ∧
    (∀ x ∈ synthetic_path year pt noise V, 0 ≤ x) ∧
    (synthetic_path year pt noise V).sum = V := by
  have hpos := synthetic_base_sum_pos year pt noise hn h0 hpt
  have hnn : ∀ x ∈ (List.range (n_hours year)).map (baseShape year pt noise), 0 ≤ x := by
    intro x hx
    rcases List.mem_map.mp hx with ⟨i, _, rfl⟩
    exact baseShape_nonneg year pt noise hn i
  simp only [synthetic_path]
  rw [if_pos hpos]
  refine ⟨by simp, ?_, normalize_sum _ V (ne_of_gt hpos)⟩
  intro x hx
  rcases List.mem_map.mp hx with ⟨b, hb, rfl⟩
  exact mul_nonneg (div_nonneg (hnn b hb) (le_of_lt hpos)) (le_of_lt hV)

theorem real_data_path_spec (n : ℕ) (pattern : List ℝ) (V : ℝ)
    (hne : pattern ≠ []) (hnn : ∀ x ∈ pattern, 0 ≤ x)
    (hex : ∃ x ∈ pattern, 0 < x) (hlen : pattern.length ≤ n) (hV : 0 < V) :
    (real_data_path n pattern V).length = n ∧
    (∀ x ∈ real_data_path n pattern V, 0 ≤ x) ∧
    (real_data_path n pattern V).sum = V := by
  obtain ⟨x0, hx0mem, hx0pos⟩ := hex
  have hfullnn : ∀ x ∈ tile_to n pattern, 0 ≤ x := fun x hx => hnn x (mem_tile_to_mem hx)
  have hTpos : 0 < (tile_to n pattern).sum :=
    sum_pos_of_mem hfullnn (mem_tile_to hx0mem hlen) hx0pos
  simp only [real_data_path]
  rw [if_neg (ne_of_gt hTpos)]
  refine ⟨?_, ?_, normalize_sum _ V (ne_of_gt hTpos)⟩
  · rw [List.length_map, tile_to_length hne]
  · intro x hx
    rcases List.mem_map.mp hx with ⟨b, hb, rfl⟩
    exact mul_nonneg (div_nonneg (hfullnn b hb) (le_of_lt hTpos)) (le_of_lt hV)

/-- An unrecognized profile type leaves `base_curve` at all zeros, so the
synthetic branch returns the zero series (no error path exists). -/
theorem generate_profile_unknown_eq (year : ℕ) (pt : String) (noise : ℕ → ℝ)
    (real_curve : List ℝ) (V : ℝ)
    (h1 : pt ≠ "INDUSTRY_24_7") (h2 : pt ≠ "OFFICE_BUILDING") (h3 : pt ≠ "SOLAR_PPA") :
    generate_profile year pt noise real_curve V = List.replicate (n_hours year) 0 := by
  unfold generate_profile
  rw [if_neg (fun hc => h1 hc.1)]
  simp only [synthetic_path]
  have hbase : ∀ i, baseShape year pt noise i = 0 := by
    intro i; unfold baseShape; rw [if_neg h1, if_neg h2, if_neg h3]
  have hmap : (List.range (n_hours year)).map (baseShape year pt noise)
      = List.replicate (n_hours year) 0 := by
    refine List.eq_replicate_iff.mpr ⟨by simp, ?_⟩
    intro b hb
    rcases List.mem_map.mp hb with ⟨i, _, rfl⟩
    exact hbase i
  rw [hmap]
  simp

/-- Shifting every element by a constant shifts the sum by `length * c`. -/
theorem sum_map_add_const (l : List ℚ) (c : ℚ) :
    (l.map (fun x => x + c)).sum = l.sum + l.length * c := by
  induction l with
  | nil => simp
  | cons a t ih =>
    simp only [List.map_cons, List.sum_cons, ih, List.length_cons]
    push_cast
    ring

/-! ## Claim theorems -/

/-- C1: the size factor claimed by the specification is 2.0 below 500 MWh, but in the
code the `volume_mwh < 500` test sits in an `elif` behind
`volume_mwh < 2000` and is therefore unreachable.  At volume 100 with
spot volatility 0.1 the code returns 2.25 (size factor 1.5) while the
claimed formula gives 3.0 (size factor 2.0). -/
theorem volume_risk_premium_dead_branch :
    calculate_volume_risk_premium (1/10) 100 = 9/4 ∧
    spec_volume_risk_premium (1/10) 100 = 3 := by
  constructor
  · norm_num [calculate_volume_risk_premium, round2, pyRoundInt]
  · norm_num [spec_volume_risk_premium]

/-- C2 (amended): for every profile type outside the three recognized
archetypes, `generate_profile` raises nothing and silently returns the
defaulted all-zero full-year series. -/
theorem generate_profile_unknown_silent_default (year : ℕ) (pt : String)
    (noise : ℕ → ℝ) (real_curve : List ℝ) (V : ℝ)
    (h1 : pt ≠ "INDUSTRY_24_7") (h2 : pt ≠ "OFFICE_BUILDING") (h3 : pt ≠ "SOLAR_PPA") :
    generate_profile year pt noise real_curve V = List.replicate (n_hours year) 0 :=
  generate_profile_unknown_eq year pt noise real_curve V h1 h2 h3

/-- C2 witness: the amended statement instantiated at a concrete
unrecognized profile type. -/
theorem generate_profile_unknown_silent_default_witness :
    generate_profile 2027 "HEAT_PUMP" (fun _ => 1) [] 5 = List.replicate (n_hours 2027) 0 :=
  generate_profile_unknown_silent_default 2027 "HEAT_PUMP" (fun _ => 1) [] 5
    (by decide) (by decide) (by decide)

/-- C2 counterexample: at the concrete unrecognized profile type
"BAKERY" the generator returns the silently defaulted all-zero series —
there is no error path — refuting the claimed error reporting. -/
theorem generate_profile_unknown_counterexample :
    generate_profile 2026 "BAKERY" (fun _ => 1) [] 1000 = List.replicate (n_hours 2026) 0 :=
  generate_profile_unknown_eq 2026 "BAKERY" (fun _ => 1) [] 1000
    (by decide) (by decide) (by decide)

/-- C3: for the three valid archetypes and a positive target volume the
generated series has one entry per hour of the calendar year, all values
are non-negative, and its sum hits the target within 1e-6 relative error
(in fact exactly).  The random draws are modelled by the `noise`
parameter, assumed non-negative (normal(1.0, 0.05)/(1.0, 0.1) draws) and
positive at hour 0; the optional Elia pattern is assumed non-negative,
somewhere positive, and at most a year long. -/
theorem generate_profile_valid (year : ℕ) (pt : String) (noise : ℕ → ℝ)
    (real_curve : List ℝ) (V : ℝ)
    (hpt : pt = "INDUSTRY_24_7" ∨ pt = "OFFICE_BUILDING" ∨ pt = "SOLAR_PPA")
    (hV : 0 < V)
    (hn : ∀ i, 0 ≤ noise i) (h0 : 0 < noise 0)
    (hrc : ∀ x ∈ real_curve, 0 ≤ x)
    (hrcpos : real_curve ≠ [] → ∃ x ∈ real_curve, 0 < x)
    (hrclen : real_curve.length ≤ n_hours year) :
    (generate_profile year pt noise real_curve V).length = n_hours year ∧
    (∀ x ∈ generate_profile year pt noise real_curve V, 0 ≤ x) ∧
    |(generate_profile year pt noise real_curve V).sum - V| ≤ V * (1 / 1000000) := by
  have habs : ∀ s : List ℝ, s.sum = V → |s.sum - V| ≤ V * (1 / 1000000) := by
    intro s hs
    rw [hs, sub_self, abs_zero]
    exact mul_nonneg (le_of_lt hV) (by norm_num)
  unfold generate_profile
  split_ifs with hcase
  · obtain ⟨hind, hne⟩ := hcase
    obtain ⟨h1, h2, h3⟩ :=
      real_data_path_spec (n_hours year) real_curve V hne hrc (hrcpos hne) hrclen hV
    exact ⟨h1, h2, habs _ h3⟩
  · obtain ⟨h1, h2, h3⟩ := synthetic_path_spec year pt noise V hpt hV hn h0
    exact ⟨h1, h2, habs _ h3⟩

/-- C3 witness: the office archetype at year 2026 with unit draws and
unit target volume. -/
theorem generate_profile_valid_witness :
    (generate_profile 2026 "OFFICE_BUILDING" (fun _ => 1) [] 1).length = n_hours 2026 ∧
    (∀ x ∈ generate_profile 2026 "OFFICE_BUILDING" (fun _ => 1) [] 1, 0 ≤ x) ∧
    |(generate_profile 2026 "OFFICE_BUILDING" (fun _ => 1) [] 1).sum - 1| ≤ 1 * (1 / 1000000) :=
  generate_profile_valid 2026 "OFFICE_BUILDING" (fun _ => 1) [] 1
    (Or.inr (Or.inl rfl)) zero_lt_one (fun _ => zero_le_one) zero_lt_one
    (by simp) (fun h => absurd rfl h) (Nat.zero_le _)

/-- C4 counterexample: on load [1, 2] and prices [0, 1] the function
returns the rounded value 0.17, not the exact spread 1/6, so the claimed
exact equality fails. -/
theorem calculate_profiling_cost_counterexample :
    calculate_profiling_cost [1, 2] [0, 1] ≠
      (List.zipWith (· * ·) [(1 : ℚ), 2] [0, 1]).sum / ([(1 : ℚ), 2]).sum
        - listMean [0, 1] := by
  norm_num [calculate_profiling_cost, listMean, round2, pyRoundInt]
  simp
  norm_num

/-- C4 (amended): `calculate_profiling_cost` returns exactly 0 for an
empty series or zero total load, and otherwise the load-weighted spread
rounded to 2 decimals — hence within 1/200 of the exact formula
`(Σ load×hpfc / Σ load) − mean(hpfc)`. -/
theorem calculate_profiling_cost_spec (load_curve hpfc : List ℚ) :
    (load_curve = [] ∨ hpfc = [] → calculate_profiling_cost load_curve hpfc = 0) ∧
    (load_curve.sum = 0 → calculate_profiling_cost load_curve hpfc = 0) ∧
    (load_curve ≠ [] → hpfc ≠ [] → load_curve.sum ≠ 0 →
      |calculate_profiling_cost load_curve hpfc -
        ((List.zipWith (· * ·) load_curve hpfc).sum / load_curve.sum - listMean hpfc)|
        ≤ 1/200) := by
  refine ⟨?_, ?_, ?_⟩
  · intro h
    simp only [calculate_profiling_cost]
    rw [if_pos h]
  · intro h
    simp [calculate_profiling_cost, h]
  · intro hl hh hs
    simp only [calculate_profiling_cost]
    rw [if_neg (fun hor => hor.elim hl hh), if_neg hs]
    exact round2_abs _

/-- C4 witness: the rounding-tolerance bound instantiated at load [1, 2]
and prices [0, 1]. -/
theorem calculate_profiling_cost_spec_witness :
    |calculate_profiling_cost [1, 2] [0, 1] -
      ((List.zipWith (· * ·) [(1 : ℚ), 2] [0, 1]).sum / ([(1 : ℚ), 2]).sum
        - listMean [0, 1])| ≤ 1/200 :=
  (calculate_profiling_cost_spec [1, 2] [0, 1]).2.2
    (List.cons_ne_nil 1 [2]) (List.cons_ne_nil 0 [1]) (by norm_num)

/-- C5: the forecast curve is exactly the raw predictions shifted by
(anchor − mean) and clipped at zero; whenever the clip does not bind
(all shifted prices non-negative) the mean of the returned curve equals
the calibration anchor exactly, so re-running on the same trained
predictions reproduces a curve whose mean is the anchor. -/
theorem generate_forecast_curve_calibrated (predicted_prices : List ℚ) (anchor : ℚ)
    (hne : predicted_prices ≠ [])
    (hclip : ∀ p ∈ predicted_prices, 0 ≤ p + (anchor - listMean predicted_prices)) :
    generate_forecast_curve predicted_prices anchor
      = predicted_prices.map (fun p => max (p + (anchor - listMean predicted_prices)) 0) ∧
    listMean (generate_forecast_curve predicted_prices anchor) = anchor := by
  have hmapmap : generate_forecast_curve predicted_prices anchor
      = predicted_prices.map (fun p => max (p + (anchor - listMean predicted_prices)) 0) := by
    simp only [generate_forecast_curve, List.map_map]
    rfl
  refine ⟨hmapmap, ?_⟩
  have hid : generate_forecast_curve predicted_prices anchor
      = predicted_prices.map (fun p => p + (anchor - listMean predicted_prices)) := by
    rw [hmapmap]
    exact List.map_congr_left (fun p hp => max_eq_left (hclip p hp))
  rw [hid]
  unfold listMean
  rw [List.length_map, sum_map_add_const]
  have hlen : (predicted_prices.length : ℚ) ≠ 0 := by
    have := List.length_pos.mpr hne
    exact_mod_cast Nat.pos_iff_ne_zero.mp this
  field_simp
  try ring

/-- C5 witness: two predictions whose mean already equals the anchor. -/
theorem generate_forecast_curve_calibrated_witness :
    listMean (generate_forecast_curve [90, 101] (191/2)) = 191/2 :=
  (generate_forecast_curve_calibrated [90, 101] (191/2)
    (List.cons_ne_nil 90 [101]) (by norm_num [listMean])).2

/-- C6: the weighted average price is the total cost over the total
volume (rounded to 2 decimals) when the volume is positive, exactly 0
when the volume is 0 (the explicit guard), and every field of the
returned result is an exact multiple of 1/100 (2-decimal rounding). -/
theorem compute_sourcing_cost_spec (curve : List HourPoint) :
    (0 < (curve.map HourPoint.load).sum →
      (compute_sourcing_cost curve).weighted_average_price
        = round2 ((curve.map (fun p => p.load * p.price)).sum
            / (curve.map HourPoint.load).sum)) ∧
    ((curve.map HourPoint.load).sum = 0 →
      (compute_sourcing_cost curve).weighted_average_price = 0) ∧
    (∃ n : ℤ, (compute_sourcing_cost curve).total_volume_mwh = (n : ℚ) / 100) ∧
    (∃ n : ℤ, (compute_sourcing_cost curve).base_volume_mwh = (n : ℚ) / 100) ∧
    (∃ n : ℤ, (compute_sourcing_cost curve).peak_volume_mwh = (n : ℚ) / 100) ∧
    (∃ n : ℤ, (compute_sourcing_cost curve).weighted_average_price = (n : ℚ) / 100) ∧
    (∃ n : ℤ, (compute_sourcing_cost curve).total_commodity_cost = (n : ℚ) / 100) := by
  refine ⟨?_, ?_, round2_exists_int _, round2_exists_int _, round2_exists_int _,
    round2_exists_int _, round2_exists_int _⟩
  · intro hT
    simp only [compute_sourcing_cost]
    rw [if_pos hT]
  · intro hT
    simp only [compute_sourcing_cost]
    rw [if_neg (by rw [hT]; exact lt_irrefl 0)]
    norm_num [round2, pyRoundInt]

/-- C6 witness: a single weekday peak-hour point of load 2 at price 50. -/
theorem compute_sourcing_cost_spec_witness :
    (compute_sourcing_cost [⟨9, 2, 2, 50⟩]).weighted_average_price
      = round2 ((([⟨9, 2, 2, 50⟩] : List HourPoint).map (fun p => p.load * p.price)).sum
          / (([⟨9, 2, 2, 50⟩] : List HourPoint).map HourPoint.load).sum) :=
  (compute_sourcing_cost_spec [⟨9, 2, 2, 50⟩]).1 (by norm_num)

/-- C7 counterexample: at technology "SOLAR" and baseload price 0.01 the
returned fair price is the rounded value −1.49, not the exact formula
value 0.01 × 0.88 − 1.5 = −1.4912, so the claimed exact equality fails. -/
theorem price_renewable_ppa_counterexample :
    (price_renewable_ppa "SOLAR" (1/100)).fair_price ≠ (1/100) * (22/25) - 1.5 := by
  have h : str_upper "SOLAR" = "SOLAR" := by decide
  simp only [price_renewable_ppa, capture_map_get, h]
  norm_num [round2, pyRoundInt]

/-- C7 (amended): fair price and cannibalization impact are the claimed
formulas rounded to 2 decimals (hence within 1/200 of them), the capture
rates come from the fixed table with conservative default 0.90 for
unknown technologies, and at the cited scenario (SOLAR, 95.50) the
claimed exact outputs hold. -/
theorem price_renewable_ppa_spec (technology : String) (baseload_price : ℚ) :
    |(price_renewable_ppa technology baseload_price).fair_price
        - (baseload_price * capture_map_get (str_upper technology) - 1.5)| ≤ 1/200 ∧
    |(price_renewable_ppa technology baseload_price).cannibalization_impact
        - baseload_price * (1 - capture_map_get (str_upper technology))| ≤ 1/200 ∧
    (str_upper technology ≠ "SOLAR" → str_upper technology ≠ "ONSHORE_WIND" →
      str_upper technology ≠ "OFFSHORE_WIND" →
      capture_map_get (str_upper technology) = 0.90) ∧
    price_renewable_ppa "SOLAR" 95.5 = ⟨82.54, 88.0, 11.46⟩ := by
  refine ⟨?_, ?_, ?_, ?_⟩
  · exact round2_abs _
  · have h1 : (price_renewable_ppa technology baseload_price).cannibalization_impact
        = round2 (baseload_price * (1 - capture_map_get (str_upper technology))) := by
      simp only [price_renewable_ppa]
      norm_num
    rw [h1]
    exact round2_abs _
  · intro h1 h2 h3
    simp only [capture_map_get]
    rw [if_neg h1, if_neg h2, if_neg h3]
  · have h : str_upper "SOLAR" = "SOLAR" := by decide
    simp only [price_renewable_ppa, capture_map_get, h]
    norm_num [round2, round1, pyRoundInt]

/-- C7 witness: the default capture rate at the unknown technology
"HYDRO". -/
theorem price_renewable_ppa_spec_witness :
    capture_map_get (str_upper "HYDRO") = 0.90 :=
  (price_renewable_ppa_spec "HYDRO" 0).2.2.1 (by decide) (by decide) (by decide)

/-- C8: the encoded `is_peak` flag is 1 exactly for hours in [8, 20) on
weekdays (`dayofweek < 5`); it is 0 on weekend days regardless of the
hour, and 0 at hour 20 itself (exclusive upper bound).  The same mask is
the peak filter of `compute_sourcing_cost`. -/
theorem is_peak_flag_spec (hour dow : ℕ) :
    (is_peak_flag hour dow = 1 ↔ 8 ≤ hour ∧ hour < 20 ∧ dow < 5) ∧
    (5 ≤ dow → is_peak_flag hour dow = 0) ∧
    is_peak_flag 20 dow = 0 := by
  have hflag : ∀ h d : ℕ, is_peak_flag h d = if 8 ≤ h ∧ h < 20 ∧ d < 5 then 1 else 0 := by
    intro h d
    unfold is_peak_flag is_peak
    by_cases hc : 8 ≤ h ∧ h < 20 ∧ d < 5
    · rw [if_pos hc, if_pos]
      simp [hc.1, hc.2.1, hc.2.2]
    · rw [if_neg hc, if_neg]
      simp only [Bool.and_eq_true, decide_eq_true_eq]
      tauto
  refine ⟨?_, ?_, ?_⟩
  · rw [hflag]
    split_ifs with h
    · simp [h]
    · simp [h]
  · intro hw
    rw [hflag, if_neg (by omega)]
  · rw [hflag, if_neg (by omega)]

/-- C8 witness: hour 12 on a Sunday (dayofweek 6) is off-peak. -/
theorem is_peak_flag_spec_witness : is_peak_flag 12 6 = 0 :=
  (is_peak_flag_spec 12 6).2.1 (by decide)

/-- C9: for the (non-negative) spot volatility of the engine the volume risk
premium is non-increasing in total volume, and for every volatility and
volume it never exceeds the fixed cap of 15. -/
theorem volume_risk_premium_monotone_capped :
    (∀ σ v1 v2 : ℚ, 0 ≤ σ → v1 ≤ v2 →
      calculate_volume_risk_premium σ v2 ≤ calculate_volume_risk_premium σ v1) ∧
    (∀ σ v : ℚ, calculate_volume_risk_premium σ v ≤ 15) := by
  constructor
  · intro σ v1 v2 hσ h12
    simp only [calculate_volume_risk_premium]
    apply round2_mono
    apply min_le_min _ (le_refl _)
    have hpos : (0 : ℚ) ≤ 1.0 + 5.0 * σ := by
      have h1 : (1.0 : ℚ) = 1 := by norm_num
      have h5 : (5.0 : ℚ) = 5 := by norm_num
      rw [h1, h5]; linarith
    have hsize : (if v2 < 2000 then (1.5 : ℚ) else if v2 < 500 then 2.0 else 1.0)
        ≤ (if v1 < 2000 then (1.5 : ℚ) else if v1 < 500 then 2.0 else 1.0) := by
      split_ifs <;> norm_num <;> linarith
    exact mul_le_mul_of_nonneg_left hsize hpos
  · intro σ v
    simp only [calculate_volume_risk_premium]
    have h15 : round2 15.0 = 15 := by norm_num [round2, pyRoundInt]
    calc round2 (min ((1.0 + 5.0 * σ) *
          (if v < 2000 then (1.5 : ℚ) else if v < 500 then 2.0 else 1.0)) 15.0)
        ≤ round2 15.0 := round2_mono (min_le_right _ _)
      _ = 15 := h15

/-- C9 witness: at zero volatility the premium at volume 3000 does not
exceed the premium at volume 100. -/
theorem volume_risk_premium_monotone_capped_witness :
    calculate_volume_risk_premium 0 3000 ≤ calculate_volume_risk_premium 0 100 :=
  volume_risk_premium_monotone_capped.1 0 100 3000 (le_refl 0) (by norm_num)

/-- C10: the baseload volume field always equals the total volume field:
the source sets `base_volume = total_volume` and rounds both the same
way. -/
theorem sourcing_base_eq_total (curve : List HourPoint) :
    (compute_sourcing_cost curve).base_volume_mwh
      = (compute_sourcing_cost curve).total_volume_mwh := rfl

end VoltagePricer
